import Mathlib

/-!
Verification development for the cloudinfo cache-and-scrape engine.

The repository's orchestration entry point is cmd/cloudinfo/main.go; the
packages it wires together (the Cloud Info Store, the Scraping Driver, the
Caching Cloud Info facade, the Event Bus and the service loader) are referenced
by main.go but their sources are not part of the tree, so those components are
modelled from the specification text, while loadInfoers and the main bootstrap
sequence are embedded directly from main.go.
-/

namespace Cloudinfo

/-- Keys of the Cloud Info Store: composite (provider, service, region, zone,
entity-id) tuples are abstracted to a countable identifier. -/
abbrev Key := Nat

/-- A stored snapshot: the fetched value together with the fetch-completion
timestamp the driver tagged the write with. -/
structure Entry where
  value : Nat
  ts : Nat
deriving DecidableEq, Repr

/-- The Cloud Info Store's per-key content: pure storage, no fetching logic. -/
def Store := Key → Option Entry

/-- Modelled from the spec: the Store `get` operation (section 4.1); the cistore
package is not in the source tree. Pure lookup - it takes no Provider Fetcher
and can therefore never invoke one. -/
def storeGet (s : Store) (k : Key) : Option Entry := s k

/-- Modelled from the spec: the Store `put` operation with the out-of-order
completion defense of section 5 - a write carrying a fetch-completion timestamp
older than the currently stored value's timestamp is discarded. The cistore
package is not in the source tree. -/
def storePut (s : Store) (k : Key) (e : Entry) : Store :=
  fun k2 =>
    if k2 = k then
      match s k with
      | some old => if e.ts < old.ts then some old else some e
      | none => some e
    else s k2

/-- Per (provider, service) bookkeeping: last successful scrape time and last
error time, as in the spec's RefreshStatus (section 3). -/
structure RefreshStatus where
  lastSuccess : Option Nat
  lastError : Option Nat
deriving DecidableEq, Repr

/-- One scrape attempt for a key: its fetch-completion timestamp and its
result (`some v` on success, `none` on fetch failure). -/
structure Attempt where
  key : Key
  ts : Nat
  result : Option Nat
deriving DecidableEq, Repr

/-- Store values together with per-key RefreshStatus. -/
structure ScrapeState where
  store : Store
  status : Key → RefreshStatus

/-- Modelled from the spec: how the Scraping Driver applies one scrape attempt
(sections 4.2, 5, 7); the pkg/cloudinfo scraping driver is not in the source
tree. A successful attempt writes through `storePut`; a failed attempt records
the error in RefreshStatus and leaves the stored value untouched
(stale-but-available). -/
def scrapeAttempt (st : ScrapeState) (a : Attempt) : ScrapeState :=
  match a.result with
  | some v =>
      { store := storePut st.store a.key ⟨v, a.ts⟩
        status := fun k =>
          if k = a.key then
            { lastSuccess := some a.ts, lastError := (st.status k).lastError }
          else st.status k }
  | none =>
      { store := st.store
        status := fun k =>
          if k = a.key then
            { lastSuccess := (st.status k).lastSuccess, lastError := some a.ts }
          else st.status k }

/-- Applying a chronological sequence of scrape attempts. -/
def runAttempts (st : ScrapeState) (as : List Attempt) : ScrapeState :=
  as.foldl scrapeAttempt st

/-- The entry produced by the most recent successful attempt for a key, if
any, folded over `init` for the value before the sequence. -/
def lastSuccessFrom (k : Key) (init : Option Entry) (as : List Attempt) : Option Entry :=
  as.foldl
    (fun acc a =>
      if a.key = k then
        match a.result with
        | some v => some ⟨v, a.ts⟩
        | none => acc
      else acc)
    init

/-- The entry produced by the most recent successful attempt for a key. -/
def lastSuccess (k : Key) (as : List Attempt) : Option Entry :=
  lastSuccessFrom k none as

/-- The initial, empty scrape state. -/
def initScrapeState : ScrapeState :=
  { store := fun _ => none
    status := fun _ => ⟨none, none⟩ }

theorem runAttempts_store_eq (as : List Attempt) (st : ScrapeState) (k : Key)
    (hsorted : as.Pairwise (fun a b => a.ts ≤ b.ts))
    (hpast : ∀ e, st.store k = some e → ∀ a ∈ as, e.ts ≤ a.ts) :
    (runAttempts st as).store k = lastSuccessFrom k (st.store k) as := by
  induction as generalizing st with
  | nil => rfl
  | cons a as ih =>
    have hstep : (scrapeAttempt st a).store k =
        (if a.key = k then
          match a.result with
          | some v => some ⟨v, a.ts⟩
          | none => st.store k
        else st.store k) := by
      cases har : a.result with
      | none =>
        simp only [scrapeAttempt, har]
        rw [ite_self]
      | some v =>
        by_cases hk : a.key = k
        · simp only [scrapeAttempt, har, storePut, if_pos hk, if_pos hk.symm]
          cases hold : st.store a.key with
          | none => rfl
          | some old =>
            have hle : old.ts ≤ a.ts :=
              hpast old (hk ▸ hold) a (List.mem_cons_self a as)
            simp [Nat.not_lt.mpr hle]
        · have hk2 : ¬k = a.key := fun h => hk h.symm
          simp only [scrapeAttempt, har, storePut, if_neg hk, if_neg hk2]
    have hsorted' : as.Pairwise (fun a b => a.ts ≤ b.ts) :=
      (List.pairwise_cons.mp hsorted).2
    have hhead : ∀ b ∈ as, a.ts ≤ b.ts := (List.pairwise_cons.mp hsorted).1
    have hpast' : ∀ e, (scrapeAttempt st a).store k = some e → ∀ b ∈ as, e.ts ≤ b.ts := by
      intro e he b hb
      rw [hstep] at he
      by_cases hk : a.key = k
      · rw [if_pos hk] at he
        cases har : a.result with
        | some v =>
          rw [har] at he
          cases he
          exact hhead b hb
        | none =>
          rw [har] at he
          exact Nat.le_trans (hpast e he a (List.mem_cons_self a as)) (hhead b hb)
      · rw [if_neg hk] at he
        exact Nat.le_trans (hpast e he a (List.mem_cons_self a as)) (hhead b hb)
    have hrest := ih (scrapeAttempt st a) hsorted' hpast'
    simp only [runAttempts, List.foldl_cons] at hrest ⊢
    rw [hrest, hstep]
    simp only [lastSuccessFrom, List.foldl_cons]

/-- C2: for every key, after any chronological sequence of scrape attempts
starting from the empty store, the Store entry is exactly the value of the most
recent successful fetch for that key; moreover a single failed attempt leaves
the previously stored value unchanged (stale-but-available policy). -/
theorem store_holds_last_success (as : List Attempt) (k : Key)
    (st : ScrapeState) (k1 : Key) (t : Nat)
    (hsorted : as.Pairwise (fun a b => a.ts ≤ b.ts)) :
    (runAttempts initScrapeState as).store k = lastSuccess k as ∧
      (scrapeAttempt st ⟨k1, t, none⟩).store k = st.store k := by
  constructor
  · have := runAttempts_store_eq as initScrapeState k hsorted
      (by intro e he; simp [initScrapeState] at he)
    simpa [lastSuccess, initScrapeState] using this
  · rfl

/-- Witness for C2 at a concrete attempt sequence: a success at time 1, a
failure at time 2, then a success at time 3 for another key. -/
theorem store_holds_last_success_witness :
    (runAttempts initScrapeState
        [⟨0, 1, some 10⟩, ⟨0, 2, none⟩, ⟨1, 3, some 20⟩]).store 0 =
      lastSuccess 0 [⟨0, 1, some 10⟩, ⟨0, 2, none⟩, ⟨1, 3, some 20⟩] ∧
      (scrapeAttempt initScrapeState ⟨0, 5, none⟩).store 0 =
        initScrapeState.store 0 :=
  store_holds_last_success [⟨0, 1, some 10⟩, ⟨0, 2, none⟩, ⟨1, 3, some 20⟩] 0
    initScrapeState 0 5 (by decide)

/-- C3: a write for a key carrying a fetch-completion timestamp strictly older
than the timestamp of the currently stored value is discarded: the store is
unchanged at every key (out-of-order completion defense). -/
theorem put_discards_stale_write (s : Store) (k : Key) (old e : Entry) (k2 : Key)
    (hold : s k = some old) (hlt : e.ts < old.ts) :
    storePut s k e k2 = s k2 := by
  unfold storePut
  by_cases hk : k2 = k
  · subst hk
    rw [hold]
    simp [hlt]
  · simp [hk]

/-- Witness for C3: a store holding timestamp 5 at key 0 discards an incoming
write with timestamp 3. -/
theorem put_discards_stale_write_witness :
    (fun k => if k = 0 then some (⟨42, 5⟩ : Entry) else none) 0 =
        some (⟨42, 5⟩ : Entry) ∧
      storePut (fun k => if k = 0 then some ⟨42, 5⟩ else none) 0 ⟨7, 3⟩ 0 =
        (fun k => if k = 0 then some (⟨42, 5⟩ : Entry) else none) 0 :=
  ⟨rfl, put_discards_stale_write (fun k => if k = 0 then some ⟨42, 5⟩ else none)
    0 ⟨42, 5⟩ ⟨7, 3⟩ 0 rfl (by decide)⟩

/-- Outcome of one synchronous facade query: the result handed to the caller,
the store after the query, and how many Provider Fetcher calls the query made. -/
structure QueryOutcome where
  result : Except Unit Nat
  after : Store
  fetchCalls : Nat

/-- Modelled from the spec: the Caching Cloud Info facade's read-through get
(section 4.3); the pkg/cloudinfo caching facade is not in the source tree. On a
hit the cached value is returned with no upstream call, whatever the in-flight
refresh state. On a miss with an in-flight fetch for the key, the caller joins
that fetch and shares its result (single-flight). On a cold miss the facade
fetches synchronously; success populates the store, failure is returned as an
unavailable error and nothing is cached. -/
def cachingGet (s : Store) (inflight : Key → Bool) (fetch : Key → Except Unit Nat)
    (joined : Key → Nat) (now : Nat) (k : Key) : QueryOutcome :=
  match storeGet s k with
  | some e => ⟨.ok e.value, s, 0⟩
  | none =>
    if inflight k then
      ⟨.ok (joined k), s, 0⟩
    else
      match fetch k with
      | .ok v => ⟨.ok v, storePut s k ⟨v, now⟩, 1⟩
      | .error er => ⟨.error er, s, 1⟩

/-- C4: on a cold miss whose synchronous fill fails with a fetcher error, the
facade returns an unavailable error, writes nothing into the store for any key,
and a subsequent query for the key performs a fresh fetch attempt (exactly one
new Provider Fetcher call). -/
theorem miss_failure_not_cached (s : Store) (inflight : Key → Bool)
    (fetch : Key → Except Unit Nat) (joined : Key → Nat) (now now2 : Nat)
    (k k2 : Key) (er : Unit)
    (hmiss : s k = none) (hnofly : inflight k = false) (hfail : fetch k = .error er) :
    (cachingGet s inflight fetch joined now k).result = .error er ∧
      (cachingGet s inflight fetch joined now k).after k2 = s k2 ∧
      (cachingGet (cachingGet s inflight fetch joined now k).after
        inflight fetch joined now2 k).fetchCalls = 1 := by
  have hq : cachingGet s inflight fetch joined now k = ⟨.error er, s, 1⟩ := by
    simp [cachingGet, storeGet, hmiss, hnofly, hfail]
  refine ⟨by rw [hq], by rw [hq], ?_⟩
  rw [hq]
  simp [cachingGet, storeGet, hmiss, hnofly, hfail]

/-- Witness for C4: a cold key 0 whose fetch fails. -/
theorem miss_failure_not_cached_witness :
    ((fun _ => none : Store) 0 = none ∧
        (fun _ => false) 0 = false ∧
        (fun _ => Except.error () : Key → Except Unit Nat) 0 = .error ()) ∧
      (cachingGet (fun _ => none) (fun _ => false) (fun _ => .error ())
          (fun _ => 0) 4 0).result = .error () ∧
      (cachingGet (fun _ => none) (fun _ => false) (fun _ => .error ())
          (fun _ => 0) 4 0).after 0 = (fun _ => none : Store) 0 ∧
      (cachingGet (cachingGet (fun _ => none) (fun _ => false) (fun _ => .error ())
            (fun _ => 0) 4 0).after
          (fun _ => false) (fun _ => .error ()) (fun _ => 0) 9 0).fetchCalls = 1 :=
  ⟨⟨rfl, rfl, rfl⟩,
    miss_failure_not_cached (fun _ => none) (fun _ => false) (fun _ => .error ())
      (fun _ => 0) 4 9 0 0 () rfl rfl rfl⟩

/-- C5: a facade query for a key holding any cached value returns that cached
value with zero Provider Fetcher calls, for every in-flight refresh state; and
the Store get operation is pure lookup, so it performs no fetch either. -/
theorem hit_needs_no_fetch (s : Store) (inflight : Key → Bool)
    (fetch : Key → Except Unit Nat) (joined : Key → Nat) (now : Nat)
    (k : Key) (e : Entry) (hhit : s k = some e) :
    (cachingGet s inflight fetch joined now k).result = .ok e.value ∧
      (cachingGet s inflight fetch joined now k).fetchCalls = 0 ∧
      storeGet s k = s k := by
  refine ⟨?_, ?_, rfl⟩ <;> simp [cachingGet, storeGet, hhit]

/-- Witness for C5: a cached key 0 is served with no upstream call even while a
refresh of key 0 is marked in flight. -/
theorem hit_needs_no_fetch_witness :
    (fun k => if k = 0 then some (⟨11, 2⟩ : Entry) else none) 0 =
        some (⟨11, 2⟩ : Entry) ∧
      (cachingGet (fun k => if k = 0 then some ⟨11, 2⟩ else none) (fun _ => true)
          (fun _ => .ok 99) (fun _ => 55) 7 0).result = .ok 11 ∧
      (cachingGet (fun k => if k = 0 then some ⟨11, 2⟩ else none) (fun _ => true)
          (fun _ => .ok 99) (fun _ => 55) 7 0).fetchCalls = 0 ∧
      storeGet (fun k => if k = 0 then some ⟨11, 2⟩ else none) 0 =
        (fun k => if k = 0 then some (⟨11, 2⟩ : Entry) else none) 0 :=
  ⟨rfl,
    hit_needs_no_fetch (fun k => if k = 0 then some ⟨11, 2⟩ else none)
      (fun _ => true) (fun _ => .ok 99) (fun _ => 55) 7 0 ⟨11, 2⟩ rfl⟩

/-- Events carried on the bus (provider, service, outcome, timestamp are
abstracted to an identifier). -/
abbrev Event := Nat

/-- One interaction with the Event Bus: a publish or a subscribe. -/
inductive BusOp where
  | pub (e : Event)
  | sub (sid : Nat)
deriving DecidableEq, Repr

/-- The bus state: each subscriber (id) with the stream it has received so
far, in subscription order. -/
abbrev Bus := List (Nat × List Event)

/-- Modelled from the spec: Event Bus publish (section 4.4); the messaging
package is not in the source tree. Publish appends the event to every current
subscriber's stream and always completes - a total function, so it cannot
block or fail, whatever the subscriber count. -/
def busPublish (b : Bus) (e : Event) : Bus :=
  b.map (fun p => (p.1, p.2 ++ [e]))

/-- Modelled from the spec: Event Bus subscribe (section 4.4). A new
subscriber starts with an empty stream - no replay of earlier events. -/
def busSubscribe (b : Bus) (sid : Nat) : Bus :=
  b ++ [(sid, [])]

/-- Running a sequence of bus interactions. -/
def busRun : List BusOp → Bus → Bus
  | [], b => b
  | .pub e :: ops, b => busRun ops (busPublish b e)
  | .sub sid :: ops, b => busRun ops (busSubscribe b sid)

/-- The events published by a sequence of bus interactions, in order. -/
def pubsOf : List BusOp → List Event
  | [] => []
  | .pub e :: ops => e :: pubsOf ops
  | .sub _ :: ops => pubsOf ops

/-- How many subscribers a sequence of bus interactions adds. -/
def numSubs : List BusOp → Nat
  | [] => 0
  | .pub _ :: ops => numSubs ops
  | .sub _ :: ops => numSubs ops + 1

theorem busRun_append (xs ys : List BusOp) (b : Bus) :
    busRun (xs ++ ys) b = busRun ys (busRun xs b) := by
  induction xs generalizing b with
  | nil => rfl
  | cons o xs ih => cases o <;> simp [busRun, ih]

theorem busRun_length (ops : List BusOp) (b : Bus) :
    (busRun ops b).length = b.length + numSubs ops := by
  induction ops generalizing b with
  | nil => simp [busRun, numSubs]
  | cons o ops ih =>
    cases o with
    | pub e => simp [busRun, numSubs, ih, busPublish]
    | sub sid => simp [busRun, numSubs, ih, busSubscribe]; omega

theorem busRun_getElem? (ops : List BusOp) (b : Bus) (i : Nat) (p : Nat × List Event)
    (hp : b[i]? = some p) :
    (busRun ops b)[i]? = some (p.1, p.2 ++ pubsOf ops) := by
  induction ops generalizing b p with
  | nil => simpa [busRun, pubsOf] using hp
  | cons o ops ih =>
    cases o with
    | pub e =>
      have hp2 : (busPublish b e)[i]? = some (p.1, p.2 ++ [e]) := by
        simp [busPublish, List.getElem?_map, hp]
      have := ih (busPublish b e) (p.1, p.2 ++ [e]) hp2
      simpa [busRun, pubsOf, List.append_assoc] using this
    | sub sid =>
      have hlen : i < b.length := by
        by_contra hge
        rw [List.getElem?_eq_none (Nat.le_of_not_lt hge)] at hp
        exact Option.noConfusion hp
      have hp2 : (busSubscribe b sid)[i]? = some p := by
        rw [busSubscribe, List.getElem?_append_left hlen]
        exact hp
      have := ih (busSubscribe b sid) p hp2
      simpa [busRun, pubsOf] using this

/-- C7: publishing any number of events to a bus with zero subscribers always
completes and leaves the empty bus (publish is total, so it neither blocks nor
errors); and a subscriber's final stream is exactly the events published after
its subscribe interaction, so it never receives an event published before it
subscribed. -/
theorem eventBus_no_replay (es : List Event) (before : List BusOp) (sid : Nat)
    (after : List BusOp) :
    busRun (es.map BusOp.pub) [] = [] ∧
      (busRun (before ++ BusOp.sub sid :: after) [])[numSubs before]? =
        some (sid, pubsOf after) := by
  constructor
  · induction es with
    | nil => rfl
    | cons e es ih => simpa [busRun, busPublish] using ih
  · rw [busRun_append]
    have hlen : (busRun before ([] : Bus)).length = numSubs before := by
      simpa using busRun_length before []
    have hsubbed : (busSubscribe (busRun before []) sid)[numSubs before]? =
        some (sid, []) := by
      rw [busSubscribe, ← hlen]
      exact List.getElem?_concat_length _ _
    have := busRun_getElem? after (busSubscribe (busRun before []) sid)
      (numSubs before) (sid, []) hsubbed
    simpa [busRun] using this

/-- Modelled from the spec: one full scrape pass of the Scraping Driver
(section 4.2) - one refresh attempt per catalog key at pass time `t`, with the
upstream fetch results given by `results`; the pkg/cloudinfo scraping driver is
not in the source tree. -/
def scrapePass (results : Key → Option Nat) (t : Nat) (st : ScrapeState)
    (catalog : List Key) : ScrapeState :=
  catalog.foldl (fun acc k => scrapeAttempt acc ⟨k, t, results k⟩) st

theorem scrapeAttempt_store_at (st : ScrapeState) (c t : Nat) (res : Option Nat)
    (k : Key) (hts : ∀ e, st.store k = some e → e.ts ≤ t) :
    (scrapeAttempt st ⟨c, t, res⟩).store k =
      if c = k then
        match res with
        | some v => some ⟨v, t⟩
        | none => st.store k
      else st.store k := by
  cases res with
  | none =>
    simp only [scrapeAttempt]
    rw [ite_self]
  | some v =>
    by_cases hk : c = k
    · simp only [scrapeAttempt, storePut, if_pos hk, if_pos hk.symm]
      cases hold : st.store c with
      | none => rfl
      | some old =>
        have hle : old.ts ≤ t := hts old (hk ▸ hold)
        simp [Nat.not_lt.mpr hle]
    · have hk2 : ¬k = c := fun h => hk h.symm
      simp only [scrapeAttempt, storePut, if_neg hk, if_neg hk2]

theorem scrapePass_store (results : Key → Option Nat) (t : Nat)
    (catalog : List Key) (st : ScrapeState) (k : Key)
    (hts : ∀ e, st.store k = some e → e.ts ≤ t) :
    (scrapePass results t st catalog).store k =
      if k ∈ catalog then
        match results k with
        | some v => some ⟨v, t⟩
        | none => st.store k
      else st.store k := by
  induction catalog generalizing st with
  | nil => simp [scrapePass]
  | cons c cs ih =>
    have hstep := scrapeAttempt_store_at st c t (results c) k hts
    have hts' : ∀ e, (scrapeAttempt st ⟨c, t, results c⟩).store k = some e → e.ts ≤ t := by
      intro e he
      rw [hstep] at he
      by_cases hk : c = k
      · rw [if_pos hk] at he
        cases hres : results c with
        | some v =>
          rw [hres] at he
          cases he
          exact Nat.le_refl t
        | none =>
          rw [hres] at he
          exact hts e he
      · rw [if_neg hk] at he
        exact hts e he
    have hrest := ih (scrapeAttempt st ⟨c, t, results c⟩) hts'
    simp only [scrapePass, List.foldl_cons] at hrest ⊢
    rw [hrest]
    by_cases hk : c = k
    · subst hk
      simp only [hstep, if_pos rfl, List.mem_cons, true_or, if_pos]
      by_cases hcs : c ∈ cs
      · simp only [if_pos hcs]
        cases results c <;> rfl
      · simp only [if_neg hcs]
    · have hk2 : ¬k = c := fun h => hk (Eq.symm h)
      rw [hstep, if_neg hk]
      simp [List.mem_cons, hk2]

/-- C6: running a full scrape pass a second time at a later pass time, with
identical upstream fetch results, leaves every Store value equal to its value
after the first pass - only the timestamps carried by the entries and the
RefreshStatus bookkeeping advance. -/
theorem scrapePass_idempotent (results : Key → Option Nat) (t1 t2 : Nat)
    (st : ScrapeState) (catalog : List Key) (k : Key)
    (hts : ∀ e, st.store k = some e → e.ts ≤ t1) (h12 : t1 ≤ t2) :
    ((scrapePass results t2 (scrapePass results t1 st catalog) catalog).store k).map
        Entry.value =
      ((scrapePass results t1 st catalog).store k).map Entry.value := by
  have hfirst := scrapePass_store results t1 catalog st k hts
  have hts2 : ∀ e, (scrapePass results t1 st catalog).store k = some e → e.ts ≤ t2 := by
    intro e he
    rw [hfirst] at he
    by_cases hmem : k ∈ catalog
    · rw [if_pos hmem] at he
      cases hres : results k with
      | some v =>
        rw [hres] at he
        cases he
        exact h12
      | none =>
        rw [hres] at he
        exact Nat.le_trans (hts e he) h12
    · rw [if_neg hmem] at he
      exact Nat.le_trans (hts e he) h12
  have hsecond := scrapePass_store results t2 catalog (scrapePass results t1 st catalog) k hts2
  rw [hsecond, hfirst]
  by_cases hmem : k ∈ catalog
  · simp only [if_pos hmem]
    cases hres : results k <;> rfl
  · simp [if_neg hmem]

/-- Witness for C6: two passes over catalog keys 0 and 1 where key 0 fetches 5
and key 1 fails, at pass times 1 then 2, starting from the empty store. -/
theorem scrapePass_idempotent_witness :
    ((scrapePass (fun k => if k = 0 then some 5 else none) 2
          (scrapePass (fun k => if k = 0 then some 5 else none) 1
            initScrapeState [0, 1]) [0, 1]).store 0).map Entry.value =
      ((scrapePass (fun k => if k = 0 then some 5 else none) 1
          initScrapeState [0, 1]).store 0).map Entry.value :=
  scrapePass_idempotent (fun k => if k = 0 then some 5 else none) 1 2
    initScrapeState [0, 1] 0
    (by intro e he; simp [initScrapeState] at he) (by decide)

/-- The phase of one caller requesting the cold key: not yet arrived, holder
of the single outstanding fetch, joined onto it, or finished with a result. -/
inductive CallerPhase where
  | pending
  | leader
  | waiting
  | done (r : Nat)
deriving DecidableEq, Repr

/-- State of the per-key single-flight coordinator for one cold key: the
stored value, the shared in-flight marker, every caller's phase, and the
number of upstream Provider Fetcher calls made for the key. -/
structure SFState where
  stored : Option Nat
  inflight : Bool
  callers : List CallerPhase
  fetchCount : Nat
deriving DecidableEq, Repr

/-- How an in-flight fetch's completion resolves one caller: the leader and
every joined caller receive the fetched value. -/
def sfFinish (v : Nat) : CallerPhase → CallerPhase
  | .leader => .done v
  | .waiting => .done v
  | c => c

/-- Modelled from the spec: the interleaved steps of concurrent get calls on
one cold key under the facade's per-key single-flight coordinator (sections
4.3 and 5); the pkg/cloudinfo caching facade is not in the source tree. A
caller that arrives to a filled store returns the cached value; the first
caller to arrive cold sets the in-flight marker and makes the one upstream
call; later cold arrivals join it; completion of the fetch (result `v`) fills
the store and hands `v` to the leader and every joined caller. -/
inductive SFStep (v : Nat) : SFState → SFState → Prop where
  | startHit (s : SFState) (i : Nat) (w : Nat) :
      s.callers[i]? = some .pending → s.stored = some w →
      SFStep v s { s with callers := s.callers.set i (.done w) }
  | startLead (s : SFState) (i : Nat) :
      s.callers[i]? = some .pending → s.stored = none → s.inflight = false →
      SFStep v s { s with inflight := true
                          fetchCount := s.fetchCount + 1
                          callers := s.callers.set i .leader }
  | startJoin (s : SFState) (i : Nat) :
      s.callers[i]? = some .pending → s.stored = none → s.inflight = true →
      SFStep v s { s with callers := s.callers.set i .waiting }
  | complete (s : SFState) :
      s.inflight = true →
      SFStep v s { stored := some v
                   inflight := false
                   callers := s.callers.map (sfFinish v)
                   fetchCount := s.fetchCount }

/-- The initial state: a cold key and `n` callers that have not yet arrived. -/
def SFInit (n : Nat) : SFState :=
  ⟨none, false, List.replicate n .pending, 0⟩

/-- States reachable by interleaving the `n` concurrent callers from the cold
initial state, with the upstream fetch returning `v`. -/
inductive SFReach (v n : Nat) : SFState → Prop where
  | init : SFReach v n (SFInit n)
  | step {s t : SFState} : SFReach v n s → SFStep v s t → SFReach v n t

/-- The single-flight invariant: the upstream call count is 0 until the one
fetch starts and 1 from then on, the store only ever holds the fetched value,
and a finished caller always holds the fetched value with the store filled. -/
def SFInv (v : Nat) (s : SFState) : Prop :=
  s.fetchCount = (if s.inflight || s.stored.isSome then 1 else 0) ∧
    (∀ w, s.stored = some w → w = v) ∧
    (∀ c ∈ s.callers, ∀ r, c = .done r → r = v ∧ s.stored.isSome)

theorem sfStep_inv {v : Nat} {s t : SFState} (hstep : SFStep v s t)
    (hinv : SFInv v s) : SFInv v t := by
  obtain ⟨hcount, hstore, hdone⟩ := hinv
  cases hstep with
  | startHit i w hpend hstored =>
    refine ⟨hcount, hstore, ?_⟩
    intro c hc r hr
    rcases List.mem_or_eq_of_mem_set hc with hmem | hset
    · exact hdone c hmem r hr
    · rw [hset] at hr
      injection hr with h
      subst h
      exact ⟨hstore _ hstored, by simp [hstored]⟩
  | startLead i hpend hstored hfl =>
    refine ⟨?_, hstore, ?_⟩
    · rw [hfl, hstored] at hcount
      simp at hcount
      simp [hcount]
    · intro c hc r hr
      rcases List.mem_or_eq_of_mem_set hc with hmem | hset
      · have hsome := (hdone c hmem r hr).2
        rw [hstored] at hsome
        exact absurd hsome (by simp)
      · rw [hset] at hr
        exact absurd hr (by simp)
  | startJoin i hpend hstored hfl =>
    refine ⟨hcount, hstore, ?_⟩
    intro c hc r hr
    rcases List.mem_or_eq_of_mem_set hc with hmem | hset
    · exact hdone c hmem r hr
    · rw [hset] at hr
      exact absurd hr (by simp)
  | complete hfl =>
    refine ⟨?_, ?_, ?_⟩
    · rw [hfl] at hcount
      simp at hcount
      simp [hcount]
    · intro w hw
      injection hw with h
      exact h.symm
    · intro c hc r hr
      rcases List.mem_map.mp hc with ⟨c0, hc0, hfin⟩
      cases c0 with
      | pending =>
        rw [← hfin] at hr
        exact absurd hr (by simp [sfFinish])
      | leader =>
        rw [← hfin] at hr
        simp only [sfFinish, CallerPhase.done.injEq] at hr
        exact ⟨hr.symm, by simp⟩
      | waiting =>
        rw [← hfin] at hr
        simp only [sfFinish, CallerPhase.done.injEq] at hr
        exact ⟨hr.symm, by simp⟩
      | done r0 =>
        rw [← hfin] at hr
        simp only [sfFinish, CallerPhase.done.injEq] at hr
        subst hr
        exact ⟨(hdone (.done r0) hc0 r0 rfl).1, by simp⟩

theorem sfReach_inv {v n : Nat} {s : SFState} (hreach : SFReach v n s) :
    SFInv v s := by
  induction hreach with
  | init =>
    refine ⟨rfl, ?_, ?_⟩
    · intro w hw
      exact Option.noConfusion hw
    · intro c hc r hr
      have hc2 := List.eq_of_mem_replicate hc
      rw [hc2] at hr
      exact absurd hr (by simp)
  | step _ hstep ih => exact sfStep_inv hstep ih

/-- C1: in every state reachable by interleaving concurrent get calls on a
cold key (including one where a background scrape overlaps a cache-miss fill,
both going through the shared per-key in-flight marker), once any caller has
finished, exactly one upstream Provider Fetcher call has been made for the
key and the caller's result is that one call's result. -/
theorem single_flight (v n : Nat) (s : SFState) (hreach : SFReach v n s)
    (i r : Nat) (hi : s.callers[i]? = some (.done r)) :
    s.fetchCount = 1 ∧ r = v := by
  obtain ⟨hcount, _, hdone⟩ := sfReach_inv hreach
  have hmem : CallerPhase.done r ∈ s.callers := by
    rcases List.getElem?_eq_some.mp hi with ⟨hlt, hget⟩
    exact hget ▸ List.getElem_mem hlt
  obtain ⟨hr, hsome⟩ := hdone _ hmem r rfl
  refine ⟨?_, hr⟩
  rw [hcount, hsome, Bool.or_true]
  rfl

/-- Witness for C1: two concurrent callers on a cold key; the first leads the
fetch (one upstream call), the second joins it, the fetch completes with 5 and
both callers finish with 5. -/
theorem single_flight_witness :
    (SFState.mk (some 5) false [CallerPhase.done 5, CallerPhase.done 5] 1).fetchCount = 1 ∧
      (5 : Nat) = 5 := by
  have h1 : SFStep 5 (SFInit 2) ⟨none, true, [.leader, .pending], 1⟩ :=
    .startLead (SFInit 2) 0 rfl rfl rfl
  have h2 : SFStep 5 ⟨none, true, [.leader, .pending], 1⟩
      ⟨none, true, [.leader, .waiting], 1⟩ :=
    .startJoin ⟨none, true, [.leader, .pending], 1⟩ 1 rfl rfl rfl
  have h3 : SFStep 5 ⟨none, true, [.leader, .waiting], 1⟩
      ⟨some 5, false, [.done 5, .done 5], 1⟩ :=
    .complete ⟨none, true, [.leader, .waiting], 1⟩ rfl
  exact single_flight 5 2 ⟨some 5, false, [.done 5, .done 5], 1⟩
    (SFReach.step (SFReach.step (SFReach.step SFReach.init h1) h2) h3) 0 5 rfl

/-- The cloud providers known to cmd/cloudinfo/main.go. -/
inductive ProviderId where
  | amazon
  | google
  | alibaba
  | oracle
  | azure
deriving DecidableEq, Repr

/-- The per-provider enable flags of the configuration consumed by
loadInfoers (config.Provider.X.Enabled in main.go). -/
structure Configuration where
  amazon : Bool
  google : Bool
  alibaba : Bool
  oracle : Bool
  azure : Bool
deriving DecidableEq, Repr

/-- The enable flag of one provider. -/
def Configuration.enabled (cfg : Configuration) : ProviderId → Bool
  | .amazon => cfg.amazon
  | .google => cfg.google
  | .alibaba => cfg.alibaba
  | .oracle => cfg.oracle
  | .azure => cfg.azure

/-- The fixed order in which loadInfoers considers providers
(main.go lines 202-270). -/
def providerOrder : List ProviderId :=
  [.amazon, .google, .alibaba, .oracle, .azure]

/-- One provider block of loadInfoers (main.go): when the provider is enabled,
its infoer constructor (amazon.NewAmazonInfoer and friends, abstracted as
`ctor` since the provider packages are external collaborators) is invoked; a
constructor error aborts loadInfoers with that provider tagged, otherwise the
infoer and the provider name are appended. -/
def loadProvider (flag : Bool) (pid : ProviderId) (ctor : ProviderId → Except Unit Nat)
    (acc : List (ProviderId × Nat) × List ProviderId) :
    Except ProviderId (List (ProviderId × Nat) × List ProviderId) :=
  if flag then
    match ctor pid with
    | .error _ => .error pid
    | .ok infoer => .ok (acc.1 ++ [(pid, infoer)], acc.2 ++ [pid])
  else .ok acc

/-- Shallow embedding of loadInfoers (main.go lines 197-273): the five provider
blocks run in the fixed order Amazon, Google, Alibaba, Oracle, Azure, and the
first constructor error makes the whole call return that error (Go's
`return nil, nil, err`). -/
def loadInfoers (cfg : Configuration) (ctor : ProviderId → Except Unit Nat) :
    Except ProviderId (List (ProviderId × Nat) × List ProviderId) :=
  match loadProvider cfg.amazon .amazon ctor ([], []) with
  | .error p => .error p
  | .ok acc1 =>
    match loadProvider cfg.google .google ctor acc1 with
    | .error p => .error p
    | .ok acc2 =>
      match loadProvider cfg.alibaba .alibaba ctor acc2 with
      | .error p => .error p
      | .ok acc3 =>
        match loadProvider cfg.oracle .oracle ctor acc3 with
        | .error p => .error p
        | .ok acc4 =>
          match loadProvider cfg.azure .azure ctor acc4 with
          | .error p => .error p
          | .ok acc5 => .ok acc5

/-- Modelled from the spec: the service loader's LoadServiceInformation
(section 4.5); the loader package is not in the source tree. Each provider's
supported services are enumerated (`enum`); a provider whose enumeration fails
is simply omitted from the catalog, the others are seeded unaffected. -/
def loadServiceInformation (providers : List ProviderId)
    (enum : ProviderId → Option (List Nat)) : List (ProviderId × List Nat) :=
  match providers with
  | [] => []
  | p :: rest =>
    match enum p with
    | some svcs => (p, svcs) :: loadServiceInformation rest enum
    | none => loadServiceInformation rest enum

/-- The state main.go reaches once bootstrap succeeds. -/
structure BootState where
  catalog : List (ProviderId × List Nat)
  providers : List ProviderId
  infoerKeys : List ProviderId
deriving DecidableEq, Repr

/-- Shallow embedding of main.go's bootstrap sequence (lines 146-164): the
result of loadInfoers goes through emperror.Panic, so a provider load error
aborts the whole process; on success the service loader seeds the catalog and
the scraping driver is handed the infoers. -/
def mainBoot (cfg : Configuration) (ctor : ProviderId → Except Unit Nat)
    (enum : ProviderId → Option (List Nat)) : Except ProviderId BootState :=
  match loadInfoers cfg ctor with
  | .error p => .error p
  | .ok acc =>
    .ok { catalog := loadServiceInformation acc.2 enum
          providers := acc.2
          infoerKeys := acc.1.map Prod.fst }

theorem loadProvider_ok (flag : Bool) (pid : ProviderId)
    (ctor : ProviderId → Except Unit Nat)
    (acc r : List (ProviderId × Nat) × List ProviderId)
    (h : loadProvider flag pid ctor acc = .ok r) :
    r.2 = acc.2 ++ (if flag then [pid] else []) ∧
      r.1.map Prod.fst = acc.1.map Prod.fst ++ (if flag then [pid] else []) ∧
      (flag = true → (ctor pid).isOk = true) := by
  cases flag with
  | false =>
    simp only [loadProvider, if_neg Bool.false_ne_true] at h
    injection h with h
    subst h
    simp
  | true =>
    simp only [loadProvider, if_pos rfl] at h
    cases hc : ctor pid with
    | error e =>
      rw [hc] at h
      exact Except.noConfusion h
    | ok infoer =>
      rw [hc] at h
      injection h with h
      subst h
      simp [Except.isOk, Except.toBool]

theorem loadInfoers_ok (cfg : Configuration) (ctor : ProviderId → Except Unit Nat)
    (r : List (ProviderId × Nat) × List ProviderId)
    (h : loadInfoers cfg ctor = .ok r) :
    r.2 = ((((([] ++ (if cfg.amazon then [ProviderId.amazon] else [])) ++
          (if cfg.google then [ProviderId.google] else [])) ++
          (if cfg.alibaba then [ProviderId.alibaba] else [])) ++
          (if cfg.oracle then [ProviderId.oracle] else [])) ++
          (if cfg.azure then [ProviderId.azure] else [])) ∧
      r.1.map Prod.fst = r.2 ∧
      (∀ p, cfg.enabled p = true → (ctor p).isOk = true) := by
  unfold loadInfoers at h
  cases h1 : loadProvider cfg.amazon .amazon ctor ([], []) with
  | error p => rw [h1] at h; exact Except.noConfusion h
  | ok acc1 =>
    rw [h1] at h
    dsimp only at h
    cases h2 : loadProvider cfg.google .google ctor acc1 with
    | error p => rw [h2] at h; exact Except.noConfusion h
    | ok acc2 =>
      rw [h2] at h
      dsimp only at h
      cases h3 : loadProvider cfg.alibaba .alibaba ctor acc2 with
      | error p => rw [h3] at h; exact Except.noConfusion h
      | ok acc3 =>
        rw [h3] at h
        dsimp only at h
        cases h4 : loadProvider cfg.oracle .oracle ctor acc3 with
        | error p => rw [h4] at h; exact Except.noConfusion h
        | ok acc4 =>
          rw [h4] at h
          dsimp only at h
          cases h5 : loadProvider cfg.azure .azure ctor acc4 with
          | error p => rw [h5] at h; exact Except.noConfusion h
          | ok acc5 =>
            rw [h5] at h
            dsimp only at h
            injection h with h
            subst h
            obtain ⟨p1, k1, c1⟩ := loadProvider_ok _ _ _ _ _ h1
            obtain ⟨p2, k2, c2⟩ := loadProvider_ok _ _ _ _ _ h2
            obtain ⟨p3, k3, c3⟩ := loadProvider_ok _ _ _ _ _ h3
            obtain ⟨p4, k4, c4⟩ := loadProvider_ok _ _ _ _ _ h4
            obtain ⟨p5, k5, c5⟩ := loadProvider_ok _ _ _ _ _ h5
            refine ⟨?_, ?_, ?_⟩
            · rw [p5, p4, p3, p2, p1]
            · rw [k5, k4, k3, k2, k1, p5, p4, p3, p2, p1]
              rfl
            · intro p hp
              cases p with
              | amazon => exact c1 hp
              | google => exact c2 hp
              | alibaba => exact c3 hp
              | oracle => exact c4 hp
              | azure => exact c5 hp

/-- C10: whenever loadInfoers succeeds, the providers list is exactly the
enabled providers in the fixed order Amazon, Google, Alibaba, Oracle, Azure (a
provider with a false enable flag never appears), and the infoers map's key
set equals that providers list. -/
theorem loadInfoers_enabled_order (cfg : Configuration)
    (ctor : ProviderId → Except Unit Nat)
    (r : List (ProviderId × Nat) × List ProviderId)
    (h : loadInfoers cfg ctor = .ok r) :
    r.2 = providerOrder.filter cfg.enabled ∧ r.1.map Prod.fst = r.2 := by
  obtain ⟨hp, hk, _⟩ := loadInfoers_ok cfg ctor r h
  refine ⟨?_, hk⟩
  rw [hp]
  obtain ⟨a, g, al, o, az⟩ := cfg
  cases a <;> cases g <;> cases al <;> cases o <;> cases az <;>
    simp [providerOrder, Configuration.enabled, List.filter]

/-- Witness for C10: all five providers enabled with succeeding constructors. -/
theorem loadInfoers_enabled_order_witness :
    loadInfoers (Configuration.mk true true true true true) (fun _ => .ok 1) =
        .ok ([(ProviderId.amazon, 1), (ProviderId.google, 1), (ProviderId.alibaba, 1),
          (ProviderId.oracle, 1), (ProviderId.azure, 1)],
          [ProviderId.amazon, ProviderId.google, ProviderId.alibaba,
            ProviderId.oracle, ProviderId.azure]) ∧
      ([(ProviderId.amazon, 1), (ProviderId.google, 1), (ProviderId.alibaba, 1),
          (ProviderId.oracle, 1), (ProviderId.azure, 1)],
        [ProviderId.amazon, ProviderId.google, ProviderId.alibaba,
          ProviderId.oracle, ProviderId.azure]).2 =
        providerOrder.filter (Configuration.mk true true true true true).enabled ∧
      ([(ProviderId.amazon, 1), (ProviderId.google, 1), (ProviderId.alibaba, 1),
          (ProviderId.oracle, 1), (ProviderId.azure, 1)],
        [ProviderId.amazon, ProviderId.google, ProviderId.alibaba,
          ProviderId.oracle, ProviderId.azure]).1.map Prod.fst =
        ([(ProviderId.amazon, 1), (ProviderId.google, 1), (ProviderId.alibaba, 1),
          (ProviderId.oracle, 1), (ProviderId.azure, 1)],
        [ProviderId.amazon, ProviderId.google, ProviderId.alibaba,
          ProviderId.oracle, ProviderId.azure]).2 :=
  ⟨rfl, loadInfoers_enabled_order (Configuration.mk true true true true true)
    (fun _ => .ok 1) _ rfl⟩

/-- C8 counterexample: Amazon and Google enabled, only Amazon's fetcher
constructor fails, yet the whole bootstrap aborts with that error (main passes
it to emperror.Panic), so the healthy, enabled Google provider never proceeds:
the failure is fatal to the whole process, contrary to the claim. -/
theorem bootstrap_failure_fatal :
    (Configuration.mk true true false false false).google = true ∧
      mainBoot (Configuration.mk true true false false false)
        (fun p => match p with | .amazon => .error () | _ => .ok 1)
        (fun _ => some [0]) = .error .amazon :=
  ⟨rfl, rfl⟩

theorem loadServiceInformation_omits (providers : List ProviderId)
    (enum : ProviderId → Option (List Nat)) (q : ProviderId)
    (hq : enum q = none) :
    q ∉ (loadServiceInformation providers enum).map Prod.fst := by
  induction providers with
  | nil => simp [loadServiceInformation]
  | cons a rest ih =>
    rw [loadServiceInformation]
    cases ha : enum a with
    | some svcs =>
      intro hin
      simp only [List.map_cons, List.mem_cons] at hin
      rcases hin with hqa | hin
      · subst hqa
        rw [hq] at ha
        exact Option.noConfusion ha
      · exact ih hin
    | none => exact ih

theorem loadServiceInformation_keeps (providers : List ProviderId)
    (enum : ProviderId → Option (List Nat)) (q2 : ProviderId) (s2 : List Nat)
    (hq2 : q2 ∈ providers) (hs2 : enum q2 = some s2) :
    (q2, s2) ∈ loadServiceInformation providers enum := by
  induction providers with
  | nil => exact absurd hq2 (List.not_mem_nil q2)
  | cons a rest ih =>
    rw [loadServiceInformation]
    rcases List.mem_cons.mp hq2 with hqa | hrest
    · subst hqa
      rw [hs2]
      exact List.mem_cons_self _ _
    · cases ha : enum a with
      | some svcs => exact List.mem_cons_of_mem _ (ih hrest)
      | none => exact ih hrest

/-- C8 (amended): a service-enumeration failure at bootstrap omits only that
provider from the catalog - providers whose enumeration succeeds are seeded
unaffected and the process continues; but a provider whose fetcher cannot be
constructed makes loadInfoers return an error which main panics on, so a
fetcher-construction failure is fatal to the whole process. -/
theorem bootstrap_failure_scope (providers : List ProviderId)
    (enum : ProviderId → Option (List Nat)) (q q2 : ProviderId) (s2 : List Nat)
    (cfg : Configuration) (ctor : ProviderId → Except Unit Nat) (p : ProviderId)
    (hq : enum q = none) (hq2 : q2 ∈ providers) (hs2 : enum q2 = some s2)
    (hp : cfg.enabled p = true) (hc : (ctor p).isOk = false) :
    (q ∉ (loadServiceInformation providers enum).map Prod.fst) ∧
      (q2, s2) ∈ loadServiceInformation providers enum ∧
      (mainBoot cfg ctor enum).isOk = false := by
  refine ⟨loadServiceInformation_omits providers enum q hq,
    loadServiceInformation_keeps providers enum q2 s2 hq2 hs2, ?_⟩
  cases hli : loadInfoers cfg ctor with
  | error e => simp [mainBoot, hli, Except.isOk, Except.toBool]
  | ok r =>
    obtain ⟨_, _, hctors⟩ := loadInfoers_ok cfg ctor r hli
    rw [hctors p hp] at hc
    exact Bool.noConfusion hc

/-- Witness for C8 (amended): provider oracle's enumeration fails and is
omitted, google's catalog entry survives; azure enabled with a failing
constructor aborts the bootstrap. -/
theorem bootstrap_failure_scope_witness :
    ((fun pr => match pr with
        | ProviderId.oracle => none
        | _ => some [3]) ProviderId.oracle = (none : Option (List Nat)) ∧
      ProviderId.google ∈ [ProviderId.google, ProviderId.oracle] ∧
      (fun pr => match pr with
        | ProviderId.oracle => none
        | _ => some [3]) ProviderId.google = some [3] ∧
      (Configuration.mk false false false false true).enabled ProviderId.azure = true ∧
      ((fun _ => Except.error () : ProviderId → Except Unit Nat)
        ProviderId.azure).isOk = false) ∧
      (ProviderId.oracle ∉ (loadServiceInformation [.google, .oracle]
          (fun pr => match pr with
            | ProviderId.oracle => none
            | _ => some [3])).map Prod.fst) ∧
      (ProviderId.google, [3]) ∈ loadServiceInformation [.google, .oracle]
        (fun pr => match pr with
          | ProviderId.oracle => none
          | _ => some [3]) ∧
      (mainBoot (Configuration.mk false false false false true)
          (fun _ => .error ())
          (fun pr => match pr with
            | ProviderId.oracle => none
            | _ => some [3])).isOk = false :=
  ⟨⟨rfl, List.mem_cons_self _ _, rfl, rfl, rfl⟩,
    bootstrap_failure_scope [.google, .oracle]
      (fun pr => match pr with
        | ProviderId.oracle => none
        | _ => some [3])
      ProviderId.oracle ProviderId.google [3]
      (Configuration.mk false false false false true)
      (fun _ => .error ()) ProviderId.azure
      rfl (List.mem_cons_self _ _) rfl rfl rfl⟩

/-- The component operations of main.go in program order, lines 143-193. -/
inductive MainStep where
  | newStore
  | loadInfoersCall
  | newReporter
  | newEventBus
  | configureServices
  | loadServiceInfo
  | newCachingCloudInfo
  | newScrapingDriver
  | startScraping
  | startManagement
  | configureValidator
  | makeEndpoints
  | enableMetrics
  | configureRoutes
  | runRouter
deriving DecidableEq, Repr

/-- Shallow embedding of the order in which main.go performs its component
operations on the success path (lines 143-193); the management engine and the
metrics endpoint are conditional on their enable flags. -/
def mainTrace (management metrics : Bool) : List MainStep :=
  [.newStore, .loadInfoersCall, .newReporter, .newEventBus, .configureServices,
    .loadServiceInfo, .newCachingCloudInfo, .newScrapingDriver, .startScraping] ++
  (if management then [.startManagement] else []) ++
  [.configureValidator, .makeEndpoints] ++
  (if metrics then [.enableMetrics] else []) ++
  [.configureRoutes, .runRouter]

/-- C9: in every process run main performs the one-time service-catalog load
(LoadServiceInformation over all configured providers) strictly before it
starts the Scraping Driver, so the driver's first tick reads a seeded
catalog. -/
theorem catalog_load_before_scraping (management metrics : Bool) :
    MainStep.loadServiceInfo ∈ mainTrace management metrics ∧
      MainStep.startScraping ∈ mainTrace management metrics ∧
      (mainTrace management metrics).indexOf MainStep.loadServiceInfo <
        (mainTrace management metrics).indexOf MainStep.startScraping := by
  cases management <;> cases metrics <;> decide

end Cloudinfo
